import Mathlib

/-!
Shallow embedding of the aggregation and caching subsystem of
`npbc_monitor.py` (snapshot store, hourly zero-fill bucketing, monthly
rollup cache), together with theorems settling the frozen claims.

Modelling conventions:
* Timestamps are `Nat` seconds since the epoch (1970-01-01).  SQL
  `date_trunc('hour', t)` becomes `hourFloor`; `date_trunc('month', t)`
  is computed from the Gregorian calendar (`monthStartSec`, `monthOfSec`,
  months indexed from January 1970).
* A table is a `List`; `ORDER BY` is modelled by `List.insertionSort`;
  `LIMIT`/`OFFSET` by `List.take`/`List.drop`; `ON CONFLICT DO NOTHING`
  by appending only the rows whose key is absent.
* Python's `int(s)` / `float(s)` parsing of the query parameter is
  modelled on the grammar actually used by the API (a string of decimal
  digits, optionally surrounded by whitespace, giving epoch seconds);
  every other string is unparsable in the model as in Python.
* `REAL` sensor fields are carried as `Rat`: they are never computed
  with, only stored and selected verbatim.
-/

/-- One row of the `BurnerLogs` table.  `timestamp` is the server-assigned
receipt time (`"Timestamp"`, the primary key); `date` is the
device-reported time (`"Date"`). -/
structure Snapshot where
  timestamp : Nat
  swVer : String
  date : Nat
  mode : Int
  state : Int
  status : Int
  ignitionFail : Bool
  pelletJam : Bool
  tset : Int
  tboiler : Int
  flame : Int
  heater : Bool
  dhw : Int
  dhwPump : Bool
  chPump : Bool
  bf : Bool
  ff : Bool
  fan : Int
  power : Int
  thermostatStop : Bool
  ffWorkTime : Int
  tds18 : Rat
  tbmp : Rat
  pbmp : Rat
  ktype : Rat
deriving Repr, DecidableEq

/-- Helper building a snapshot from the three fields the claims exercise,
with fixed payload for the remaining attributes. -/
def mkSnap (ts date : Nat) (ffwt : Int) : Snapshot :=
  { timestamp := ts, swVer := "1.0", date := date, mode := 0, state := 0,
    status := 0, ignitionFail := false, pelletJam := false, tset := 70,
    tboiler := 65, flame := 0, heater := false, dhw := 0, dhwPump := false,
    chPump := false, bf := false, ff := false, fan := 0, power := 0,
    thermostatStop := false, ffWorkTime := ffwt, tds18 := 0, tbmp := 0,
    pbmp := 0, ktype := 0 }

/-- Sum of the `FFWorkTime` column over a list of rows (SQL `SUM`,
except that SQL yields no row at all for an empty group — that fact is
kept in the operations, not hidden here). -/
def sumFF (l : List Snapshot) : Int :=
  (l.map Snapshot.ffWorkTime).sum

/-- Sum of `FFWorkTime` over rows whose receipt time `"Timestamp"` lies
in the half-open window `[lo, hi)` — the join/filter condition actually
used by the aggregation SQL. -/
def sumFFInWindow (store : List Snapshot) (lo hi : Nat) : Int :=
  sumFF (store.filter (fun s => decide (lo ≤ s.timestamp) && decide (s.timestamp < hi)))

/-- Sum of `FFWorkTime` over rows whose device-reported `"Date"` lies in
the half-open window `[lo, hi)` — the field the specification says the
bucketing filters on. -/
def sumFFDateWindow (store : List Snapshot) (lo hi : Nat) : Int :=
  sumFF (store.filter (fun s => decide (lo ≤ s.date) && decide (s.date < hi)))

/-- SQL `date_trunc('hour', t)` on an epoch-second timestamp. -/
def hourFloor (t : Nat) : Nat := 3600 * (t / 3600)

/-- SQL `generate_series(b0, bN, '1 hour')`: the hour boundaries from
`b0` up to `bN` inclusive, empty when `bN < b0`. -/
def hourBuckets (b0 bN : Nat) : List Nat :=
  if b0 ≤ bN then (List.range ((bN - b0) / 3600 + 1)).map (fun i => b0 + 3600 * i)
  else []

/-- One output row of `/api/getConsumptionStats`: the hour-bucket
boundary (emitted as the `"Timestamp"` column) and the zero-filled sum. -/
structure ConsumptionRow where
  timestamp : Nat
  ffWorkTime : Int
deriving Repr, DecidableEq

/-- Core of `get_consumption_stats` (the SQL at lines 357–371), after the
start parameter has been resolved to `startSec`: a left join of the hour
series against `BurnerLogs` on `bl."Timestamp" >= hour_bucket AND
bl."Timestamp" < hour_bucket + interval '1 hour'`, with
`COALESCE(SUM(..), 0)` zero-fill, grouped and ordered by bucket. -/
def hourlySeries (store : List Snapshot) (startSec now : Nat) : List ConsumptionRow :=
  (hourBuckets (hourFloor startSec) (hourFloor now)).map
    (fun b => { timestamp := b, ffWorkTime := sumFFInWindow store b (b + 3600) })

/-- Gregorian leap-year test. -/
def isLeapYear (y : Nat) : Bool :=
  (y % 4 == 0 && y % 100 != 0) || (y % 400 == 0)

/-- Number of days of month `m` (0 = January .. 11 = December) of year `y`. -/
def daysInMonth (y m : Nat) : Nat :=
  if m = 1 then (if isLeapYear y then 29 else 28)
  else if m = 3 ∨ m = 5 ∨ m = 8 ∨ m = 10 then 30
  else 31

/-- Length in seconds of calendar month number `i`, months being indexed
from 0 = January 1970. -/
def monthLenSec (i : Nat) : Nat := 86400 * daysInMonth (1970 + i / 12) (i % 12)

/-- Epoch second at which calendar month number `i` starts. -/
def monthStartSec : Nat → Nat
  | 0 => 0
  | i + 1 => monthStartSec i + monthLenSec i

/-- Fuel-driven search for the month containing `t`: starting from month
`m` with `monthStartSec m ≤ t`, advance while the next month still starts
at or before `t`. -/
def monthOfAux (t : Nat) : Nat → Nat → Nat
  | 0, m => m
  | fuel + 1, m => if monthStartSec (m + 1) ≤ t then monthOfAux t fuel (m + 1) else m

/-- Index of the calendar month containing epoch second `t`; this is SQL
`date_trunc('month', t)` up to the order isomorphism between month start
dates and month indices.  Fuel `t + 1` suffices because each month is at
least one second long. -/
def monthOfSec (t : Nat) : Nat := monthOfAux t (t + 1) 0

/-- Characters Python's `int(str)`/`float(str)` strip before parsing. -/
def isSpaceChar (c : Char) : Bool :=
  c == ' ' || c == '\t' || c == '\n' || c == '\r' || c == '\x0b' || c == '\x0c'

/-- Decimal digit test. -/
def isDigitChar (c : Char) : Bool :=
  decide ('0' ≤ c) && decide (c ≤ '9')

/-- Strip leading and trailing whitespace. -/
def pyStripChars (cs : List Char) : List Char :=
  ((cs.dropWhile isSpaceChar).reverse.dropWhile isSpaceChar).reverse

/-- Value of a digit string. -/
def digitsVal (cs : List Char) : Nat :=
  cs.foldl (fun acc c => 10 * acc + (c.toNat - 48)) 0

/-- Parse a non-empty all-digit character list, rejecting anything else. -/
def parseDigits (cs : List Char) : Option Nat :=
  if cs ≠ [] ∧ cs.all isDigitChar then some (digitsVal cs) else none

/-- Model of Python `int(s)` as used on the `timestamp` query parameter:
whitespace-stripped decimal digits give epoch seconds, anything else
raises `ValueError` (here: `none`).  The sign/underscore extensions of
Python's grammar are outside the epoch-seconds values the API receives
and are not modelled. -/
def pyIntParse (s : String) : Option Nat := parseDigits (pyStripChars s.data)

/-- Model of Python `float(s)` followed by `datetime.fromtimestamp` as
used by `get_stats`: restricted, like `pyIntParse`, to whole epoch
seconds written in decimal (fractional literals are outside the values
the claims exercise). -/
def pyFloatParse (s : String) : Option Nat := parseDigits (pyStripChars s.data)

/-- One output row of `/api/getStats`.  Note that the column the API
labels `"Date"` is `to_char("Timestamp", ...)` — the formatted receipt
time, kept here unformatted.  The `WHERE "Date" >= %s` filter sees the
device-reported `"Date"` table column, but the bare name in
`ORDER BY "Date" ASC` binds to this SELECT output alias (PostgreSQL
gives the output column precedence there), so ordering is by receipt
time. -/
structure StatsRow where
  date : Nat
  power : Int
  flame : Int
  tset : Int
  tboiler : Int
  dhw : Int
  thermostatStop : Bool
  tds18 : Rat
  ktype : Rat
  tbmp : Rat
deriving Repr, DecidableEq

/-- Field selection of the `get_stats` SELECT list. -/
def statsRowOf (s : Snapshot) : StatsRow :=
  { date := s.timestamp, power := s.power, flame := s.flame, tset := s.tset,
    tboiler := s.tboiler, dhw := s.dhw, thermostatStop := s.thermostatStop,
    tds18 := s.tds18, ktype := s.ktype, tbmp := s.tbmp }

/-- Ordering actually used by `ORDER BY "Date" ASC` in `get_stats`: the
bare name `"Date"` there resolves to the SELECT output alias
`to_char("Timestamp", 'YYYY-MM-DD"T"HH24:MI:SS')`, whose ISO string
order coincides with the order of the receipt timestamps. -/
def receiptLe (a b : Snapshot) : Prop := a.timestamp ≤ b.timestamp

instance : DecidableRel receiptLe := fun a b => Nat.decLe a.timestamp b.timestamp

instance : IsTotal Snapshot receiptLe := ⟨fun a b => Nat.le_total a.timestamp b.timestamp⟩

instance : IsTrans Snapshot receiptLe := ⟨fun _ _ _ => Nat.le_trans⟩

/-- Ordering by the device-reported `"Date"` table column — the ordering
the specification asserts for the windowed series.  Used only to state
that claim, for comparison with the receipt ordering the SQL actually
produces. -/
def dateLe (a b : Snapshot) : Prop := a.date ≤ b.date

instance : DecidableRel dateLe := fun a b => Nat.decLe a.date b.date

instance : IsTotal Snapshot dateLe := ⟨fun a b => Nat.le_total a.date b.date⟩

instance : IsTrans Snapshot dateLe := ⟨fun _ _ _ => Nat.le_trans⟩

/-- The unpaginated `get_stats` query: rows with device `"Date" >=
startDate`, ordered ascending by the output `"Date"` alias — the
formatted receipt time — and projected to the SELECT list. -/
def statsQueryAll (store : List Snapshot) (startDate : Nat) : List StatsRow :=
  (List.insertionSort receiptLe (store.filter (fun s => decide (startDate ≤ s.date)))).map
    statsRowOf

/-- The windowed query as the specification words it: same filter, but
ordered ascending by the device-reported date.  This definition follows
the spec, not the source, and exists only so the original pagination
claim can be stated against the code. -/
def statsQueryAllByDeviceDate (store : List Snapshot) (startDate : Nat) : List StatsRow :=
  (List.insertionSort dateLe (store.filter (fun s => decide (startDate ≤ s.date)))).map
    statsRowOf

/-- The `get_stats` query with `LIMIT`/`OFFSET` applied after ordering. -/
def statsQuery (store : List Snapshot) (startDate limit offset : Nat) : List StatsRow :=
  ((statsQueryAll store startDate).drop offset).take limit

/-- Clamp of the `limit` parameter (`if limit > 10000: limit = 10000`). -/
def clampLimit (limit : Nat) : Nat := if 10000 < limit then 10000 else limit

/-- Handler `/api/getStats`: validates/defaults the `timestamp`
parameter and runs `statsQuery`.  A present, non-empty string other than
`"null"` must parse as a timestamp or the request is rejected with
HTTP 400 (`Except.error`); an absent, empty or `"null"` parameter
selects the last 24 hours.  (Python truthiness makes the empty string
take the default branch.) -/
def get_stats (store : List Snapshot) (now : Nat) (timestamp : Option String)
    (limit page : Nat) : Except String (List StatsRow) :=
  let limitC := clampLimit limit
  let offset := (page - 1) * limitC
  match timestamp with
  | some s =>
    if s ≠ "" ∧ s ≠ "null" then
      match pyFloatParse s with
      | some ts => Except.ok (statsQuery store ts limitC offset)
      | none => Except.error "Invalid timestamp"
    else Except.ok (statsQuery store (now - 86400) limitC offset)
  | none => Except.ok (statsQuery store (now - 86400) limitC offset)

/-- Handler `/api/getConsumptionStats`: resolves the `timestamp`
parameter — substituting now minus 24 hours when the parameter is
absent, empty, or fails to parse (`except ValueError` falls back to the
default rather than rejecting) — then runs the hourly series SQL. -/
def get_consumption_stats (store : List Snapshot) (now : Nat)
    (timestamp : Option String) : List ConsumptionRow :=
  let startSec : Nat :=
    match timestamp with
    | some s => (pyIntParse s).getD (now - 24 * 3600)
    | none => now - 24 * 3600
  hourlySeries store startSec now

/-- Sum of `FFWorkTime` over the snapshots whose receipt time falls in
calendar month `m` — what the rollup SQL actually aggregates. -/
def sumFFTimestampMonth (store : List Snapshot) (m : Nat) : Int :=
  sumFF (store.filter (fun s => monthOfSec s.timestamp == m))

/-- Sum of `FFWorkTime` over the snapshots whose device-reported date
falls in calendar month `m` — what the specification says is
aggregated. -/
def sumFFDateMonth (store : List Snapshot) (m : Nat) : Int :=
  sumFF (store.filter (fun s => monthOfSec s.date == m))

/-- Distinct receipt-time months of a list of rows (the `GROUP BY` key
set of the rollup SQL). -/
def monthKeys (l : List Snapshot) : List Nat :=
  (l.map (fun s => monthOfSec s.timestamp)).dedup

/-- SQL `SELECT date_trunc('month', "Timestamp"), SUM("FFWorkTime") FROM
"BurnerLogs" WHERE p GROUP BY 1`: one `(month, sum)` row per distinct
receipt-time month of the rows satisfying `p`; an empty group set
produces no rows at all. -/
def monthlyGroups (store : List Snapshot) (p : Snapshot → Bool) : List (Nat × Int) :=
  (monthKeys (store.filter p)).map
    (fun m => (m, sumFF ((store.filter p).filter (fun s => monthOfSec s.timestamp == m))))

/-- Existence of a `MonthlyStats` row for month `m`. -/
def hasMonth (cache : List (Nat × Int)) (m : Nat) : Bool :=
  cache.any (fun r => r.1 == m)

/-- SQL `INSERT ... ON CONFLICT ("Month") DO NOTHING`: rows whose month
already exists are silently dropped. -/
def insertIgnoreConflicts (cache rows : List (Nat × Int)) : List (Nat × Int) :=
  cache ++ rows.filter (fun r => ! hasMonth cache r.1)

/-- The reconciler: when the previous month (current month index minus
one) has no `MonthlyStats` row, aggregate `BurnerLogs` over
`[prevMonthStart, currentMonthStart)` by receipt time and insert the
resulting rows with conflict-ignore; otherwise do nothing. -/
def ensure_monthly_stats_up_to_date (store : List Snapshot)
    (cache : List (Nat × Int)) (now : Nat) : List (Nat × Int) :=
  if hasMonth cache (monthOfSec now - 1) then cache
  else
    insertIgnoreConflicts cache (monthlyGroups store (fun s =>
      decide (monthStartSec (monthOfSec now - 1) ≤ s.timestamp) &&
        decide (s.timestamp < monthStartSec (monthOfSec now))))

/-- Cache-seeding step of `initialize_database`: aggregate every
snapshot received strictly before the start of the current month into
per-month rows and insert them with conflict-ignore. -/
def init_database (store : List Snapshot) (cache : List (Nat × Int))
    (now : Nat) : List (Nat × Int) :=
  insertIgnoreConflicts cache (monthlyGroups store (fun s =>
    decide (s.timestamp < monthStartSec (monthOfSec now))))

/-- Ordering used by `ORDER BY yr_mon` in `get_consumption_by_month`
(the `to_char(.., 'YYYY-MM')` string order coincides with the month
index order). -/
def monthRowLe (a b : Nat × Int) : Prop := a.1 ≤ b.1

instance : DecidableRel monthRowLe := fun a b => Nat.decLe a.1 b.1

instance : IsTotal (Nat × Int) monthRowLe := ⟨fun a b => Nat.le_total a.1 b.1⟩

instance : IsTrans (Nat × Int) monthRowLe := ⟨fun _ _ _ => Nat.le_trans⟩

/-- Live part of the monthly series: per-month sums over the snapshots
received at or after the start of the current month. -/
def liveMonthRows (store : List Snapshot) (now : Nat) : List (Nat × Int) :=
  monthlyGroups store (fun s => decide (monthStartSec (monthOfSec now) ≤ s.timestamp))

/-- Handler `/api/getConsumptionByMonth`: run the reconciler first, then
`UNION ALL` the cached rows with the live current-month rows, ordered by
month. -/
def get_consumption_by_month (store : List Snapshot) (cache : List (Nat × Int))
    (now : Nat) : List (Nat × Int) :=
  List.insertionSort monthRowLe
    (ensure_monthly_stats_up_to_date store cache now ++ liveMonthRows store now)

/-! Calendar lemmas: `monthStartSec` is strictly monotone and
`monthOfSec` is its Galois companion. -/

theorem daysInMonth_pos (y m : Nat) : 0 < daysInMonth y m := by
  unfold daysInMonth
  split
  · split <;> norm_num
  · split <;> norm_num

theorem monthLenSec_pos (i : Nat) : 0 < monthLenSec i :=
  Nat.mul_pos (by norm_num) (daysInMonth_pos _ _)

theorem monthStartSec_succ (i : Nat) :
    monthStartSec (i + 1) = monthStartSec i + monthLenSec i := rfl

theorem monthStartSec_lt_succ (i : Nat) : monthStartSec i < monthStartSec (i + 1) := by
  rw [monthStartSec_succ]
  have := monthLenSec_pos i
  omega

theorem monthStartSec_strictMono : StrictMono monthStartSec :=
  strictMono_nat_of_lt_succ monthStartSec_lt_succ

theorem monthStartSec_mono : Monotone monthStartSec :=
  monthStartSec_strictMono.monotone

theorem self_le_monthStartSec (i : Nat) : i ≤ monthStartSec i := by
  induction i with
  | zero => exact Nat.zero_le _
  | succ n ih =>
    rw [monthStartSec_succ]
    have := monthLenSec_pos n
    omega

theorem monthOfAux_bracket (t : Nat) :
    ∀ fuel m, monthStartSec m ≤ t → t < monthStartSec (m + fuel) →
      monthStartSec (monthOfAux t fuel m) ≤ t ∧
        t < monthStartSec (monthOfAux t fuel m + 1) := by
  intro fuel
  induction fuel with
  | zero =>
    intro m h1 h2
    rw [Nat.add_zero] at h2
    omega
  | succ n ih =>
    intro m h1 h2
    rw [monthOfAux]
    split
    · rename_i h
      have h2' : t < monthStartSec (m + 1 + n) := by
        have : m + 1 + n = m + (n + 1) := by omega
        rw [this]
        exact h2
      exact ih (m + 1) h h2'
    · rename_i h
      exact ⟨h1, by omega⟩

theorem monthOfSec_bracket (t : Nat) :
    monthStartSec (monthOfSec t) ≤ t ∧ t < monthStartSec (monthOfSec t + 1) := by
  have h0 : monthStartSec 0 ≤ t := Nat.zero_le t
  have h1 : t < monthStartSec (0 + (t + 1)) := by
    rw [Nat.zero_add]
    have := self_le_monthStartSec (t + 1)
    omega
  exact monthOfAux_bracket t (t + 1) 0 h0 h1

theorem monthStartSec_le_iff {m t : Nat} : monthStartSec m ≤ t ↔ m ≤ monthOfSec t := by
  constructor
  · intro h
    by_contra hc
    push_neg at hc
    have hmono := monthStartSec_mono (show monthOfSec t + 1 ≤ m by omega)
    have hb := (monthOfSec_bracket t).2
    omega
  · intro h
    have hmono := monthStartSec_mono h
    have hb := (monthOfSec_bracket t).1
    omega

theorem lt_monthStartSec_iff {m t : Nat} : t < monthStartSec m ↔ monthOfSec t < m := by
  have h := @monthStartSec_le_iff m t
  omega

theorem monthOfSec_eq_iff {m t : Nat} :
    monthOfSec t = m ↔ monthStartSec m ≤ t ∧ t < monthStartSec (m + 1) := by
  have h1 := @monthStartSec_le_iff m t
  have h2 := @lt_monthStartSec_iff (m + 1) t
  omega

theorem monthOfSec_mono {s t : Nat} (h : s ≤ t) : monthOfSec s ≤ monthOfSec t :=
  monthStartSec_le_iff.mp (le_trans (monthOfSec_bracket s).1 h)

/-! Claims about the hourly series. -/

/-- C2 counterexample: the claim that each emitted hourly total sums
`FFWorkTime` over the snapshots whose device-reported `"Date"` lies in
the bucket is false — a snapshot received in hour 0 but device-dated in
hour 2 is counted in bucket 0. -/
theorem hourly_bucket_deviceDate_refuted :
    ¬ (∀ (store : List Snapshot) (startSec now : Nat),
        ∀ r ∈ hourlySeries store startSec now,
          r.ffWorkTime = sumFFDateWindow store r.timestamp (r.timestamp + 3600)) := by
  intro h
  have hmem : (⟨0, 15⟩ : ConsumptionRow) ∈ hourlySeries [mkSnap 0 7200 15] 0 0 := by decide
  have := h [mkSnap 0 7200 15] 0 0 ⟨0, 15⟩ hmem
  exact absurd this (by decide)

/-- C2 (amended): every row emitted by the hourly series has its total
equal to the sum of `FFWorkTime` over the snapshots whose receipt time
`"Timestamp"` (not the device-reported `"Date"`) lies in the half-open
hour window of the row. -/
theorem hourly_bucket_sums_receipt_time (store : List Snapshot) (startSec now : Nat)
    (r : ConsumptionRow) (hr : r ∈ hourlySeries store startSec now) :
    r.ffWorkTime = sumFFInWindow store r.timestamp (r.timestamp + 3600) := by
  unfold hourlySeries at hr
  rw [List.mem_map] at hr
  obtain ⟨b, _, rfl⟩ := hr
  rfl

/-- Witness for the amended C2 theorem at a concrete store. -/
theorem hourly_bucket_sums_receipt_time_witness :
    (⟨0, 15⟩ : ConsumptionRow).ffWorkTime =
      sumFFInWindow [mkSnap 0 7200 15] (⟨0, 15⟩ : ConsumptionRow).timestamp
        ((⟨0, 15⟩ : ConsumptionRow).timestamp + 3600) :=
  hourly_bucket_sums_receipt_time [mkSnap 0 7200 15] 0 0 ⟨0, 15⟩ (by decide)

/-- C3: when the hour-truncated start is at or before the hour-truncated
current time, the hourly series has exactly `(bN - b0)/3600 + 1` rows;
the `i`-th row carries the boundary `b0 + 3600*i` (so boundaries are
strictly ascending, one hour apart, each appearing exactly once) and the
window sum as its total; and a boundary whose window matches no snapshot
still appears, with total `0`. -/
theorem hourly_series_gapless (store : List Snapshot) (startSec now : Nat)
    (h : hourFloor startSec ≤ hourFloor now) :
    (hourlySeries store startSec now).length =
        (hourFloor now - hourFloor startSec) / 3600 + 1 ∧
      (∀ i (hi : i < (hourlySeries store startSec now).length),
        (hourlySeries store startSec now).get ⟨i, hi⟩ =
          ⟨hourFloor startSec + 3600 * i,
            sumFFInWindow store (hourFloor startSec + 3600 * i)
              (hourFloor startSec + 3600 * i + 3600)⟩) ∧
      (∀ i (hi : i < (hourlySeries store startSec now).length),
        store.filter (fun s =>
            decide (hourFloor startSec + 3600 * i ≤ s.timestamp) &&
              decide (s.timestamp < hourFloor startSec + 3600 * i + 3600)) = [] →
          ((hourlySeries store startSec now).get ⟨i, hi⟩).ffWorkTime = 0) := by
  have hEq : hourlySeries store startSec now =
      (List.range ((hourFloor now - hourFloor startSec) / 3600 + 1)).map
        (fun i => ⟨hourFloor startSec + 3600 * i,
          sumFFInWindow store (hourFloor startSec + 3600 * i)
            (hourFloor startSec + 3600 * i + 3600)⟩) := by
    unfold hourlySeries hourBuckets
    rw [if_pos h, List.map_map]
    rfl
  have hlen : (hourlySeries store startSec now).length =
      (hourFloor now - hourFloor startSec) / 3600 + 1 := by
    rw [hEq]
    simp
  have hget : ∀ i (hi : i < (hourlySeries store startSec now).length),
      (hourlySeries store startSec now).get ⟨i, hi⟩ =
        ⟨hourFloor startSec + 3600 * i,
          sumFFInWindow store (hourFloor startSec + 3600 * i)
            (hourFloor startSec + 3600 * i + 3600)⟩ := by
    intro i hi
    rw [List.get_eq_getElem, List.getElem_of_eq hEq]
    simp
  refine ⟨hlen, hget, ?_⟩
  intro i hi hfilter
  rw [hget i hi]
  show sumFFInWindow store (hourFloor startSec + 3600 * i)
    (hourFloor startSec + 3600 * i + 3600) = 0
  unfold sumFFInWindow
  rw [hfilter]
  rfl

/-- Witness for C3: start hour 0, current hour 1, one snapshot in the
first bucket and none in the second. -/
theorem hourly_series_gapless_witness :
    (hourlySeries [mkSnap 1800 1800 15] 0 3600).length =
        (hourFloor 3600 - hourFloor 0) / 3600 + 1 ∧
      (∀ i (hi : i < (hourlySeries [mkSnap 1800 1800 15] 0 3600).length),
        (hourlySeries [mkSnap 1800 1800 15] 0 3600).get ⟨i, hi⟩ =
          ⟨hourFloor 0 + 3600 * i,
            sumFFInWindow [mkSnap 1800 1800 15] (hourFloor 0 + 3600 * i)
              (hourFloor 0 + 3600 * i + 3600)⟩) ∧
      (∀ i (hi : i < (hourlySeries [mkSnap 1800 1800 15] 0 3600).length),
        [mkSnap 1800 1800 15].filter (fun s =>
            decide (hourFloor 0 + 3600 * i ≤ s.timestamp) &&
              decide (s.timestamp < hourFloor 0 + 3600 * i + 3600)) = [] →
          ((hourlySeries [mkSnap 1800 1800 15] 0 3600).get ⟨i, hi⟩).ffWorkTime = 0) :=
  hourly_series_gapless [mkSnap 1800 1800 15] 0 3600 (by decide)

/-- C10: when the hour-truncated start lies strictly after the
hour-truncated current time, the hourly series is empty — the boundary
generator produces no buckets, so no row is emitted and nothing fails. -/
theorem hourly_series_future_start_empty (store : List Snapshot) (startSec now : Nat)
    (h : hourFloor now < hourFloor startSec) :
    hourlySeries store startSec now = [] := by
  unfold hourlySeries hourBuckets
  rw [if_neg (by omega)]
  rfl

/-- Witness for C10: a start two hours in the future yields an empty
series even over a non-empty store. -/
theorem hourly_series_future_start_empty_witness :
    hourlySeries [mkSnap 0 0 5] 7200 0 = [] :=
  hourly_series_future_start_empty [mkSnap 0 0 5] 7200 0 (by decide)

/-! Claims about query parameter validation. -/

/-- C4 counterexample: the claim that every timestamp-taking query
operation rejects an unparsable parameter without touching storage is
false for the hourly series — on `"abc"` it returns a storage-dependent
result (so storage is accessed and nothing is rejected). -/
theorem unparsable_reject_refuted :
    ¬ (∀ (s : String), pyIntParse s = none →
        ∀ (store store' : List Snapshot) (now : Nat),
          get_consumption_stats store now (some s) =
            get_consumption_stats store' now (some s)) := by
  intro h
  have := h "abc" (by decide) [mkSnap 0 0 5] [] 3600
  exact absurd this (by decide)

/-- C4 (amended): the windowed series rejects an unparsable timestamp
(present, non-empty, not the literal `"null"`) as a validation error,
with a storage-independent result; the hourly series instead silently
substitutes the default last-24-hours window and proceeds against
storage. -/
theorem unparsable_timestamp_behaviour (s : String) (hne : s ≠ "") (hnn : s ≠ "null")
    (hf : pyFloatParse s = none) (hi : pyIntParse s = none)
    (store store' : List Snapshot) (now limit page : Nat) :
    get_stats store now (some s) limit page = Except.error "Invalid timestamp" ∧
      get_stats store now (some s) limit page = get_stats store' now (some s) limit page ∧
      get_consumption_stats store now (some s) = get_consumption_stats store now none := by
  have h1 : ∀ st : List Snapshot, get_stats st now (some s) limit page =
      Except.error "Invalid timestamp" := by
    intro st
    show (if s ≠ "" ∧ s ≠ "null" then
        match pyFloatParse s with
        | some ts =>
          Except.ok (statsQuery st ts (clampLimit limit) ((page - 1) * clampLimit limit))
        | none => Except.error "Invalid timestamp"
      else
        Except.ok (statsQuery st (now - 86400) (clampLimit limit)
          ((page - 1) * clampLimit limit))) = Except.error "Invalid timestamp"
    rw [if_pos ⟨hne, hnn⟩, hf]
  refine ⟨h1 store, (h1 store).trans (h1 store').symm, ?_⟩
  show hourlySeries store ((pyIntParse s).getD (now - 24 * 3600)) now =
    hourlySeries store (now - 24 * 3600) now
  rw [hi, Option.getD_none]

/-- Witness for the amended C4 theorem at the unparsable parameter
`"abc"`. -/
theorem unparsable_timestamp_behaviour_witness :
    get_stats [mkSnap 0 0 5] 3600 (some "abc") 5 1 = Except.error "Invalid timestamp" ∧
      get_stats [mkSnap 0 0 5] 3600 (some "abc") 5 1 = get_stats [] 3600 (some "abc") 5 1 ∧
      get_consumption_stats [mkSnap 0 0 5] 3600 (some "abc") =
        get_consumption_stats [mkSnap 0 0 5] 3600 none :=
  unparsable_timestamp_behaviour "abc" (by decide) (by decide) (by decide) (by decide)
    [mkSnap 0 0 5] [] 3600 5 1

/-- C9: for the windowed series the literal string `"null"` behaves
exactly like an omitted timestamp — no validation error is raised and
the default window (device dates in the last 24 hours) is queried. -/
theorem null_timestamp_default (store : List Snapshot) (now limit page : Nat) :
    get_stats store now (some "null") limit page = get_stats store now none limit page ∧
      get_stats store now (some "null") limit page =
        Except.ok (statsQuery store (now - 86400) (clampLimit limit)
          ((page - 1) * clampLimit limit)) :=
  ⟨rfl, rfl⟩

/-! Claims about windowed-series pagination. -/

theorem flatten_take_pages {α : Type} (l : List α) (L : Nat) :
    ∀ k, ((List.range k).map (fun i => (l.drop (i * L)).take L)).flatten = l.take (k * L) := by
  intro k
  induction k with
  | zero => simp
  | succ n ih =>
    rw [List.range_succ, List.map_append, List.flatten_append, ih]
    simp only [List.map_cons, List.map_nil, List.flatten_cons, List.flatten_nil, List.append_nil]
    rw [Nat.succ_mul, List.take_add]

/-- C7 counterexample: the claim that the concatenated pages reproduce
the first `k*limit` rows of an ascending-by-deviceDate query is false —
`ORDER BY "Date"` binds to the output alias (the formatted receipt
timestamp), so on a store whose receipt order reverses its device-date
order the first page holds the earliest-received rows, not the
earliest-device-dated ones. -/
theorem stats_pagination_deviceDate_refuted :
    ¬ (∀ (store : List Snapshot) (start limit k : Nat), 1 ≤ k →
        ((List.range k).map
            (fun i => statsQuery store start (clampLimit limit) (i * clampLimit limit))).flatten =
          (statsQueryAllByDeviceDate store start).take (k * clampLimit limit)) := by
  intro h
  have heq := h [mkSnap 10 30 1, mkSnap 20 20 2, mkSnap 30 10 3] 0 2 1 (by decide)
  have hdates := congrArg (List.map StatsRow.date) heq
  exact absurd hdates (by decide)

/-- C7 (amended): for a fixed store, start timestamp and limit (clamped
to 10000), concatenating the windowed-series pages `1..k` — page `p`
reading with offset `(p-1)*limit` — equals the first `k*limit` rows of
the single unpaginated query ordered ascending by the output `"Date"`
alias, i.e. by receipt timestamp (not by the device-reported date used
in the WHERE filter), so no row is duplicated or dropped at page
boundaries. -/
theorem stats_pagination (store : List Snapshot) (start limit k : Nat) (hk : 1 ≤ k) :
    ((List.range k).map
        (fun i => statsQuery store start (clampLimit limit) (i * clampLimit limit))).flatten =
      (statsQueryAll store start).take (k * clampLimit limit) :=
  flatten_take_pages (statsQueryAll store start) (clampLimit limit) k

/-- Witness for the amended C7 theorem: two pages of size two over a
three-row store whose receipt order is the reverse of its device-date
order. -/
theorem stats_pagination_witness :
    ((List.range 2).map
        (fun i => statsQuery [mkSnap 10 30 1, mkSnap 20 20 2, mkSnap 30 10 3] 0
          (clampLimit 2) (i * clampLimit 2))).flatten =
      (statsQueryAll [mkSnap 10 30 1, mkSnap 20 20 2, mkSnap 30 10 3] 0).take
        (2 * clampLimit 2) :=
  stats_pagination [mkSnap 10 30 1, mkSnap 20 20 2, mkSnap 30 10 3] 0 2 2 (by decide)

/-! Structural lemmas about the rollup aggregation. -/

theorem hasMonth_nil (m : Nat) : hasMonth [] m = false := rfl

theorem hasMonth_append (a b : List (Nat × Int)) (m : Nat) :
    hasMonth (a ++ b) m = (hasMonth a m || hasMonth b m) :=
  List.any_append

theorem mem_monthlyGroups {store : List Snapshot} {p : Snapshot → Bool} {m : Nat} {v : Int}
    (h : (m, v) ∈ monthlyGroups store p) :
    (∃ s, s ∈ store ∧ p s = true ∧ monthOfSec s.timestamp = m) ∧
      v = sumFF ((store.filter p).filter (fun s => monthOfSec s.timestamp == m)) := by
  unfold monthlyGroups monthKeys at h
  rw [List.mem_map] at h
  obtain ⟨m2, hm2, heq⟩ := h
  injection heq with hm1 hv1
  subst hm1
  rw [List.mem_dedup, List.mem_map] at hm2
  obtain ⟨s, hs, hsm⟩ := hm2
  rw [List.mem_filter] at hs
  exact ⟨⟨s, hs.1, hs.2, hsm⟩, hv1.symm⟩

theorem hasMonth_monthlyGroups {store : List Snapshot} {p : Snapshot → Bool} {m : Nat} :
    hasMonth (monthlyGroups store p) m = true ↔
      ∃ s, s ∈ store ∧ p s = true ∧ monthOfSec s.timestamp = m := by
  unfold hasMonth
  rw [List.any_eq_true]
  constructor
  · rintro ⟨r, hr, hbeq⟩
    unfold monthlyGroups monthKeys at hr
    rw [List.mem_map] at hr
    obtain ⟨m2, hm2, rfl⟩ := hr
    have hm2m : m2 = m := by simpa using hbeq
    subst hm2m
    rw [List.mem_dedup, List.mem_map] at hm2
    obtain ⟨s, hs, hsm⟩ := hm2
    rw [List.mem_filter] at hs
    exact ⟨s, hs.1, hs.2, hsm⟩
  · rintro ⟨s, hs, hp, hm⟩
    refine ⟨(m, sumFF ((store.filter p).filter (fun s2 => monthOfSec s2.timestamp == m))),
      ?_, by simp⟩
    unfold monthlyGroups monthKeys
    rw [List.mem_map]
    refine ⟨m, ?_, rfl⟩
    rw [List.mem_dedup, List.mem_map]
    exact ⟨s, List.mem_filter.mpr ⟨hs, hp⟩, hm⟩

theorem monthlyGroups_between_key {store : List Snapshot} {a c m : Nat} {v : Int}
    (h : (m, v) ∈ monthlyGroups store (fun s =>
      decide (monthStartSec a ≤ s.timestamp) && decide (s.timestamp < monthStartSec c))) :
    a ≤ m ∧ m < c := by
  obtain ⟨⟨s, _, hp, hm⟩, _⟩ := mem_monthlyGroups h
  rw [Bool.and_eq_true, decide_eq_true_eq, decide_eq_true_eq] at hp
  have h1 := monthStartSec_le_iff.mp hp.1
  have h2 := lt_monthStartSec_iff.mp hp.2
  omega

theorem filter_month_subsume (store : List Snapshot) (p : Snapshot → Bool) (m : Nat)
    (hp : ∀ s ∈ store, monthOfSec s.timestamp = m → p s = true) :
    (store.filter p).filter (fun s => monthOfSec s.timestamp == m) =
      store.filter (fun s => monthOfSec s.timestamp == m) := by
  rw [List.filter_filter]
  apply List.filter_congr
  intro s hs
  by_cases hm : monthOfSec s.timestamp = m
  · simp [hm, hp s hs hm]
  · simp [hm]

theorem ensure_nil_cache (store : List Snapshot) (now : Nat) :
    ensure_monthly_stats_up_to_date store [] now =
      monthlyGroups store (fun s =>
        decide (monthStartSec (monthOfSec now - 1) ≤ s.timestamp) &&
          decide (s.timestamp < monthStartSec (monthOfSec now))) := by
  unfold ensure_monthly_stats_up_to_date insertIgnoreConflicts hasMonth
  simp

theorem init_nil_cache (store : List Snapshot) (now : Nat) :
    init_database store [] now =
      monthlyGroups store (fun s => decide (s.timestamp < monthStartSec (monthOfSec now))) := by
  unfold init_database insertIgnoreConflicts hasMonth
  simp

/-! Claims about the monthly rollup values. -/

/-- C1 counterexample: the claim that a cached rollup value for month
`m` equals the sum of `FFWorkTime` over snapshots whose device-reported
`"Date"` falls in `m` is false — a snapshot received in January 1970 but
device-dated in February is cached under January. -/
theorem monthly_rollup_deviceDate_refuted :
    ¬ (∀ (store : List Snapshot) (now m : Nat) (v : Int),
        ((m, v) ∈ init_database store [] now → v = sumFFDateMonth store m) ∧
          ((m, v) ∈ ensure_monthly_stats_up_to_date store [] now →
            v = sumFFDateMonth store m)) := by
  intro h
  have hmem : ((0 : Nat), (15 : Int)) ∈ init_database [mkSnap 0 2678400 15] [] 2678400 := by
    decide
  have := (h [mkSnap 0 2678400 15] 2678400 0 15).1 hmem
  exact absurd this (by decide)

/-- C1 (amended): every rollup row written by the full initialization
backfill, and every rollup row written by `ensureUpToDate`, carries the
sum of `FFWorkTime` over the snapshots whose receipt time `"Timestamp"`
(not the device-reported `"Date"`) falls in that row's month. -/
theorem monthly_rollup_value (store : List Snapshot) (now m : Nat) (v : Int) :
    ((m, v) ∈ init_database store [] now → v = sumFFTimestampMonth store m) ∧
      ((m, v) ∈ ensure_monthly_stats_up_to_date store [] now →
        v = sumFFTimestampMonth store m) := by
  constructor
  · intro h
    rw [init_nil_cache] at h
    obtain ⟨⟨s0, hs0, hp0, hm0⟩, hv⟩ := mem_monthlyGroups h
    rw [decide_eq_true_eq] at hp0
    have hmlt : m < monthOfSec now := by
      have := lt_monthStartSec_iff.mp hp0
      omega
    rw [hv]
    unfold sumFFTimestampMonth
    congr 1
    apply filter_month_subsume
    intro s _ hm
    have hb := (monthOfSec_bracket s.timestamp).2
    rw [hm] at hb
    have hmono := monthStartSec_mono (show m + 1 ≤ monthOfSec now by omega)
    simp only [decide_eq_true_eq]
    omega
  · intro h
    rw [ensure_nil_cache] at h
    obtain ⟨⟨s0, hs0, hp0, hm0⟩, hv⟩ := mem_monthlyGroups h
    rw [Bool.and_eq_true, decide_eq_true_eq, decide_eq_true_eq] at hp0
    have hkey : monthOfSec now - 1 ≤ m ∧ m < monthOfSec now := by
      have h1 := monthStartSec_le_iff.mp hp0.1
      have h2 := lt_monthStartSec_iff.mp hp0.2
      omega
    rw [hv]
    unfold sumFFTimestampMonth
    congr 1
    apply filter_month_subsume
    intro s _ hm
    have hb1 := (monthOfSec_bracket s.timestamp).1
    have hb2 := (monthOfSec_bracket s.timestamp).2
    rw [hm] at hb1 hb2
    have hmono1 := monthStartSec_mono hkey.1
    have hmono2 := monthStartSec_mono (show m + 1 ≤ monthOfSec now by omega)
    simp only [Bool.and_eq_true, decide_eq_true_eq]
    omega

/-- Witness for the amended C1 theorem: one January 1970 snapshot cached
by the reconciler invoked in February 1970. -/
theorem monthly_rollup_value_witness :
    (7 : Int) = sumFFTimestampMonth [mkSnap 100 100 7] 0 :=
  (monthly_rollup_value [mkSnap 100 100 7] 2678400 0 7).2 (by decide)

/-! Claims about the reconciler's insertion behaviour. -/

theorem ensure_of_hasMonth {store : List Snapshot} {cache : List (Nat × Int)} {now : Nat}
    (h : hasMonth cache (monthOfSec now - 1) = true) :
    ensure_monthly_stats_up_to_date store cache now = cache := by
  unfold ensure_monthly_stats_up_to_date
  rw [if_pos h]

theorem ensure_of_not_hasMonth {store : List Snapshot} {cache : List (Nat × Int)} {now : Nat}
    (h : hasMonth cache (monthOfSec now - 1) = false) :
    ensure_monthly_stats_up_to_date store cache now =
      insertIgnoreConflicts cache (monthlyGroups store (fun s =>
        decide (monthStartSec (monthOfSec now - 1) ≤ s.timestamp) &&
          decide (s.timestamp < monthStartSec (monthOfSec now)))) := by
  unfold ensure_monthly_stats_up_to_date
  rw [if_neg (by simp [h])]

/-- C5 counterexample: a single reconciler invocation over an empty
store caches nothing — the aggregation produces no group for the empty
previous month, so no rollup row (not even one with total `0`) exists
for it afterwards. -/
theorem ensure_prev_month_row_refuted :
    ¬ (∀ (store : List Snapshot) (cache : List (Nat × Int)) (now : Nat),
        hasMonth (ensure_monthly_stats_up_to_date store cache now)
          (monthOfSec now - 1) = true) := by
  intro h
  have := h [] [] 2678400
  exact absurd this (by decide)

/-- C5 (amended): after one reconciler invocation a rollup row for the
previous month exists iff it already existed or at least one snapshot
was received in `[previousMonthStart, currentMonthStart)`; when the
previous month is empty the aggregation emits no group, so no row (in
particular no zero row) is inserted. -/
theorem ensure_prev_month_row (store : List Snapshot) (cache : List (Nat × Int)) (now : Nat) :
    (hasMonth cache (monthOfSec now - 1) = true →
        ensure_monthly_stats_up_to_date store cache now = cache) ∧
      (hasMonth cache (monthOfSec now - 1) = false →
        (hasMonth (ensure_monthly_stats_up_to_date store cache now)
            (monthOfSec now - 1) = true ↔
          ∃ s, s ∈ store ∧ monthStartSec (monthOfSec now - 1) ≤ s.timestamp ∧
            s.timestamp < monthStartSec (monthOfSec now))) := by
  constructor
  · exact ensure_of_hasMonth
  · intro h
    rw [ensure_of_not_hasMonth h]
    unfold insertIgnoreConflicts
    rw [hasMonth_append, h, Bool.false_or]
    constructor
    · intro hh
      unfold hasMonth at hh
      rw [List.any_eq_true] at hh
      obtain ⟨r, hr, hbeq⟩ := hh
      rw [List.mem_filter] at hr
      obtain ⟨m, v⟩ := r
      obtain ⟨⟨s, hs, hp, hm⟩, _⟩ := mem_monthlyGroups hr.1
      rw [Bool.and_eq_true, decide_eq_true_eq, decide_eq_true_eq] at hp
      exact ⟨s, hs, hp.1, hp.2⟩
    · rintro ⟨s, hs, h1, h2⟩
      have hm : monthOfSec s.timestamp = monthOfSec now - 1 := by
        have ha := monthStartSec_le_iff.mp h1
        have hb := lt_monthStartSec_iff.mp h2
        omega
      have hgrp : hasMonth (monthlyGroups store (fun s2 =>
          decide (monthStartSec (monthOfSec now - 1) ≤ s2.timestamp) &&
            decide (s2.timestamp < monthStartSec (monthOfSec now))))
          (monthOfSec now - 1) = true :=
        hasMonth_monthlyGroups.mpr ⟨s, hs,
          by rw [Bool.and_eq_true, decide_eq_true_eq, decide_eq_true_eq]; exact ⟨h1, h2⟩, hm⟩
      unfold hasMonth at hgrp ⊢
      rw [List.any_eq_true] at hgrp ⊢
      obtain ⟨r, hr, hbeq⟩ := hgrp
      refine ⟨r, List.mem_filter.mpr ⟨hr, ?_⟩, hbeq⟩
      have hr1 : r.1 = monthOfSec now - 1 := by simpa using hbeq
      have hany : (cache.any fun r2 => r2.1 == monthOfSec now - 1) = false := h
      rw [hr1, hany]
      rfl

/-- Witness for the amended C5 theorem: one January 1970 snapshot and
the reconciler invoked in February 1970 with an empty cache. -/
theorem ensure_prev_month_row_witness :
    hasMonth (ensure_monthly_stats_up_to_date [mkSnap 100 100 7] [] 2678400)
        (monthOfSec 2678400 - 1) = true ↔
      ∃ s, s ∈ [mkSnap 100 100 7] ∧
        monthStartSec (monthOfSec 2678400 - 1) ≤ s.timestamp ∧
          s.timestamp < monthStartSec (monthOfSec 2678400) :=
  (ensure_prev_month_row [mkSnap 100 100 7] [] 2678400).2 (by decide)

theorem ensure_twice_aux (store : List Snapshot) (cache : List (Nat × Int)) (now : Nat)
    (h : hasMonth cache (monthOfSec now - 1) = false)
    (h2 : hasMonth (ensure_monthly_stats_up_to_date store cache now)
      (monthOfSec now - 1) = false) :
    ensure_monthly_stats_up_to_date store cache now = cache := by
  rw [ensure_of_not_hasMonth h] at h2 ⊢
  unfold insertIgnoreConflicts at h2 ⊢
  have hfil : (monthlyGroups store (fun s =>
      decide (monthStartSec (monthOfSec now - 1) ≤ s.timestamp) &&
        decide (s.timestamp < monthStartSec (monthOfSec now)))).filter
      (fun r => ! hasMonth cache r.1) = [] := by
    rw [List.filter_eq_nil_iff]
    intro r hr hkeep
    obtain ⟨m, v⟩ := r
    have hkey := monthlyGroups_between_key hr
    have hm : m = monthOfSec now - 1 := by omega
    have hmemf : (m, v) ∈ (monthlyGroups store (fun s =>
        decide (monthStartSec (monthOfSec now - 1) ≤ s.timestamp) &&
          decide (s.timestamp < monthStartSec (monthOfSec now)))).filter
        (fun r2 => ! hasMonth cache r2.1) :=
      List.mem_filter.mpr ⟨hr, hkeep⟩
    have htrue : hasMonth (cache ++ (monthlyGroups store (fun s =>
        decide (monthStartSec (monthOfSec now - 1) ≤ s.timestamp) &&
          decide (s.timestamp < monthStartSec (monthOfSec now)))).filter
        (fun r2 => ! hasMonth cache r2.1)) (monthOfSec now - 1) = true := by
      unfold hasMonth
      rw [List.any_eq_true]
      exact ⟨(m, v), List.mem_append_right _ hmemf, by simp [hm]⟩
    exact Bool.noConfusion (htrue.symm.trans h2)
  rw [hfil, List.append_nil]

/-- C6: running the reconciler twice in succession over the same store
and the same current time leaves the cache exactly as one run does — the
second run either sees the previous month present and no-ops, or finds
the same empty aggregation again and inserts nothing. -/
theorem ensure_idempotent (store : List Snapshot) (cache : List (Nat × Int)) (now : Nat) :
    ensure_monthly_stats_up_to_date store
        (ensure_monthly_stats_up_to_date store cache now) now =
      ensure_monthly_stats_up_to_date store cache now := by
  cases h2 : hasMonth (ensure_monthly_stats_up_to_date store cache now)
      (monthOfSec now - 1) with
  | true => exact ensure_of_hasMonth h2
  | false =>
    cases h : hasMonth cache (monthOfSec now - 1) with
    | true =>
      have e1 : ensure_monthly_stats_up_to_date store cache now = cache :=
        ensure_of_hasMonth h
      rw [e1] at h2
      exact Bool.noConfusion (h.symm.trans h2)
    | false =>
      have e3 := ensure_twice_aux store cache now h h2
      rw [e3]
      exact e3

/-! Claims about the monthly series. -/

theorem monthlyGroups_keys_nodup (store : List Snapshot) (p : Snapshot → Bool) :
    ((monthlyGroups store p).map Prod.fst).Nodup := by
  unfold monthlyGroups
  rw [List.map_map]
  have hcomp : (Prod.fst ∘ fun m =>
      (m, sumFF ((store.filter p).filter (fun s => monthOfSec s.timestamp == m)))) =
      (id : Nat → Nat) := rfl
  rw [hcomp, List.map_id]
  exact List.nodup_dedup _

theorem liveMonthRows_key {store : List Snapshot} {now : Nat}
    (hrecv : ∀ s ∈ store, s.timestamp ≤ now) :
    ∀ r ∈ liveMonthRows store now, r.1 = monthOfSec now := by
  intro r hr
  obtain ⟨m, v⟩ := r
  obtain ⟨⟨s, hs, hp, hm⟩, _⟩ := mem_monthlyGroups hr
  rw [decide_eq_true_eq] at hp
  have h1 := monthStartSec_le_iff.mp hp
  have h2 := monthOfSec_mono (hrecv s hs)
  show m = monthOfSec now
  omega

theorem ensure_keys_lt {store : List Snapshot} {cache : List (Nat × Int)} {now : Nat}
    (hbound : ∀ r ∈ cache, r.1 < monthOfSec now) :
    ∀ r ∈ ensure_monthly_stats_up_to_date store cache now, r.1 < monthOfSec now := by
  intro r hr
  cases h : hasMonth cache (monthOfSec now - 1) with
  | true =>
    rw [ensure_of_hasMonth h] at hr
    exact hbound r hr
  | false =>
    rw [ensure_of_not_hasMonth h] at hr
    unfold insertIgnoreConflicts at hr
    rw [List.mem_append] at hr
    cases hr with
    | inl hc => exact hbound r hc
    | inr hf =>
      rw [List.mem_filter] at hf
      obtain ⟨m, v⟩ := r
      have hkey := monthlyGroups_between_key hf.1
      exact hkey.2

theorem ensure_keys_nodup {store : List Snapshot} {cache : List (Nat × Int)} {now : Nat}
    (hnodup : (cache.map Prod.fst).Nodup) :
    ((ensure_monthly_stats_up_to_date store cache now).map Prod.fst).Nodup := by
  cases h : hasMonth cache (monthOfSec now - 1) with
  | true =>
    rw [ensure_of_hasMonth h]
    exact hnodup
  | false =>
    rw [ensure_of_not_hasMonth h]
    unfold insertIgnoreConflicts
    rw [List.map_append, List.nodup_append]
    refine ⟨hnodup, ?_, ?_⟩
    · have hsub : List.Sublist
          ((monthlyGroups store (fun s =>
            decide (monthStartSec (monthOfSec now - 1) ≤ s.timestamp) &&
              decide (s.timestamp < monthStartSec (monthOfSec now)))).filter
            (fun r => ! hasMonth cache r.1))
          (monthlyGroups store (fun s =>
            decide (monthStartSec (monthOfSec now - 1) ≤ s.timestamp) &&
              decide (s.timestamp < monthStartSec (monthOfSec now)))) :=
        List.filter_sublist _
      exact List.Nodup.sublist (hsub.map Prod.fst) (monthlyGroups_keys_nodup store _)
    · intro k hk1 hk2
      rw [List.mem_map] at hk1 hk2
      obtain ⟨r1, hr1, hk1e⟩ := hk1
      obtain ⟨r2, hr2, hk2e⟩ := hk2
      rw [List.mem_filter] at hr2
      have hfalse : hasMonth cache r2.1 = false := by simpa using hr2.2
      have htrue : hasMonth cache r2.1 = true := by
        unfold hasMonth
        rw [List.any_eq_true]
        refine ⟨r1, hr1, ?_⟩
        rw [hk1e, ← hk2e] at *
        simp [hk1e, ← hk2e]
      exact Bool.noConfusion (htrue.symm.trans hfalse)

/-- C8: under the maintained invariants — cached months are pairwise
distinct, every cached month lies strictly before the current month, and
every stored receipt time is at most `now` — the monthly series is
strictly ascending by month; its rows are exactly the (reconciled)
cached rows together with the live current-month rows; every reconciled
cached row is for a month before the current one; and every live row is
for the current month.  Hence each month appears exactly once and no
month appears both cached and live. -/
theorem monthly_series_sorted (store : List Snapshot) (cache : List (Nat × Int)) (now : Nat)
    (hnodup : (cache.map Prod.fst).Nodup)
    (hbound : ∀ r ∈ cache, r.1 < monthOfSec now)
    (hrecv : ∀ s ∈ store, s.timestamp ≤ now) :
    ((get_consumption_by_month store cache now).map Prod.fst).Sorted (· < ·) ∧
      (∀ r : Nat × Int, r ∈ get_consumption_by_month store cache now ↔
        (r ∈ ensure_monthly_stats_up_to_date store cache now ∨
          r ∈ liveMonthRows store now)) ∧
      (∀ r ∈ ensure_monthly_stats_up_to_date store cache now, r.1 < monthOfSec now) ∧
      (∀ r ∈ liveMonthRows store now, r.1 = monthOfSec now) := by
  have hperm : List.Perm (get_consumption_by_month store cache now)
      (ensure_monthly_stats_up_to_date store cache now ++ liveMonthRows store now) :=
    List.perm_insertionSort _ _
  have hE : ∀ r ∈ ensure_monthly_stats_up_to_date store cache now,
      r.1 < monthOfSec now := ensure_keys_lt hbound
  have hL : ∀ r ∈ liveMonthRows store now, r.1 = monthOfSec now :=
    liveMonthRows_key hrecv
  refine ⟨?_, ?_, hE, hL⟩
  · have hsorted : List.Sorted monthRowLe (get_consumption_by_month store cache now) :=
      List.sorted_insertionSort _ _
    have hkeysnd : ((ensure_monthly_stats_up_to_date store cache now ++
        liveMonthRows store now).map Prod.fst).Nodup := by
      rw [List.map_append, List.nodup_append]
      refine ⟨ensure_keys_nodup hnodup, monthlyGroups_keys_nodup store _, ?_⟩
      intro k hk1 hk2
      rw [List.mem_map] at hk1 hk2
      obtain ⟨r1, hr1, hk1e⟩ := hk1
      obtain ⟨r2, hr2, hk2e⟩ := hk2
      have hb1 := hE r1 hr1
      have hb2 := hL r2 hr2
      omega
    have hnd : ((get_consumption_by_month store cache now).map Prod.fst).Nodup :=
      ((hperm.map Prod.fst).nodup_iff).mpr hkeysnd
    have hp1 : (get_consumption_by_month store cache now).Pairwise
        (fun a b : Nat × Int => a.1 ≤ b.1) := hsorted
    have hp2 : (get_consumption_by_month store cache now).Pairwise
        (fun a b : Nat × Int => a.1 ≠ b.1) := List.pairwise_map.mp hnd
    have hp3 := (hp1.and hp2).imp (fun hab => lt_of_le_of_ne hab.1 hab.2)
    exact List.pairwise_map.mpr hp3
  · intro r
    rw [hperm.mem_iff, List.mem_append]

/-- Witness for C8: one cached January row, one January snapshot and one
February snapshot, queried in February 1970. -/
theorem monthly_series_sorted_witness :
    ((get_consumption_by_month [mkSnap 100 100 7, mkSnap 2678500 2678500 9]
        [] 2678500).map Prod.fst).Sorted (· < ·) ∧
      (∀ r : Nat × Int, r ∈ get_consumption_by_month
          [mkSnap 100 100 7, mkSnap 2678500 2678500 9] [] 2678500 ↔
        (r ∈ ensure_monthly_stats_up_to_date
            [mkSnap 100 100 7, mkSnap 2678500 2678500 9] [] 2678500 ∨
          r ∈ liveMonthRows [mkSnap 100 100 7, mkSnap 2678500 2678500 9] 2678500)) ∧
      (∀ r ∈ ensure_monthly_stats_up_to_date
          [mkSnap 100 100 7, mkSnap 2678500 2678500 9] [] 2678500,
        r.1 < monthOfSec 2678500) ∧
      (∀ r ∈ liveMonthRows [mkSnap 100 100 7, mkSnap 2678500 2678500 9] 2678500,
        r.1 = monthOfSec 2678500) :=
  monthly_series_sorted [mkSnap 100 100 7, mkSnap 2678500 2678500 9] [] 2678500
    (by decide) (by decide) (by decide)
